import Mathlib

/-!
Verification of the waveform pre/post-processing and batch-orchestration
pipeline of `inference.py` (Music-Source-Separation-Training).

Samples are modelled as exact rationals.  Audio buffers returned by
`librosa.load(..., mono=False)` are either 1-D (mono file: shape `(N,)`)
or 2-D (shape `(channels, N)`); the `NDArray` type below captures exactly
this.  Fallible numpy/python operations (IndexError on `shape[1]` of a
1-D array, ZeroDivisionError on `k1 / n` with `n = 0`) are modelled with
`Option`, and the early `return` / uncaught-exception outcomes of a run
with an explicit error value.
-/

/-- A numpy array as used by the pipeline: 1-D (a mono buffer of samples)
or 2-D (a list of rows). -/
inductive NDArray where
  | d1 (data : List ℚ)
  | d2 (rows : List (List ℚ))
deriving DecidableEq

/-- `a.shape` of numpy: `[n]` for 1-D, `[rows, cols]` for 2-D (rectangular
arrays; `cols` is read off the first row). -/
def ndshape : NDArray → List Nat
  | .d1 l => [l.length]
  | .d2 r => [r.length, (r.headD []).length]

/-- The rows of a 2-D array (the pipeline only reads rows of 2-D values). -/
def ndRows : NDArray → List (List ℚ)
  | .d1 l => [l]
  | .d2 r => r

/-- Auxiliary column-by-column transpose: `transposeCols n m` produces the
first `n` columns of `m` as rows. -/
def transposeCols : Nat → List (List ℚ) → List (List ℚ)
  | 0, _ => []
  | n + 1, m => m.map (fun r => r.headD 0) :: transposeCols n (m.map (fun r => r.tail))

/-- numpy transpose of a rectangular 2-D array (`mix.T`, `res[instr].T`). -/
def transpose2 (m : List (List ℚ)) : List (List ℚ) :=
  transposeCols (m.headD []).length m

/-- numpy `.T`: identity on 1-D arrays, matrix transpose on 2-D arrays. -/
def transposeND : NDArray → NDArray
  | .d1 l => .d1 l
  | .d2 m => .d2 (transpose2 m)

/-- `np.vstack([a, b])` as used by the pipeline (both arguments 2-D). -/
def vstack : NDArray → NDArray → NDArray
  | .d2 a, .d2 b => .d2 (a ++ b)
  | a, _ => a

/-- `inference.py` lines 31-39.  `stereo_narrowing(wave, value)` with
`n = 100 - value`, `k1 = (50 + n/2)/100`, `k2 = (50 - n/2)/100`;
`wave[0] = wave[0]*k1 + wave[1]*k2` and `wave[1] = wave[1]*k1 + wave0*k2`
where `wave0` is a snapshot of the original `wave[0]`. -/
def stereo_narrowing (wave : List ℚ × List ℚ) (value : ℚ) : List ℚ × List ℚ :=
  let n := 100 - value
  let k1 := (50 + n / 2) / 100
  let k2 := (50 - n / 2) / 100
  let wave0 := wave.1
  (List.zipWith (fun a b => a * k1 + b * k2) wave.1 wave.2,
   List.zipWith (fun a b => a * k1 + b * k2) wave.2 wave0)

/-- The arithmetic of `inference.py` lines 21-29 (`stereo_widering`):
`n = (100 - value)/100`, `k1 = .5 + n/2`, `k2 = .5 - n/2`;
`wave[0] = wave[0]*(k1/n) - wave[1]*(k2/n)` and
`wave[1] = wave[1]*(k1/n) - wave0*(k2/n)` with `wave0` the snapshot of the
original `wave[0]`. -/
def stereo_widering_core (wave : List ℚ × List ℚ) (value : ℚ) : List ℚ × List ℚ :=
  let n := (100 - value) / 100
  let k1 := 1 / 2 + n / 2
  let k2 := 1 / 2 - n / 2
  let wave0 := wave.1
  (List.zipWith (fun a b => a * (k1 / n) - b * (k2 / n)) wave.1 wave.2,
   List.zipWith (fun a b => a * (k1 / n) - b * (k2 / n)) wave.2 wave0)

/-- `inference.py` lines 21-29.  `none` models the Python
`ZeroDivisionError` raised by `k1 / n` when `n = 0` (i.e. `value = 100`);
otherwise the result of the widening arithmetic. -/
def stereo_widering (wave : List ℚ × List ℚ) (value : ℚ) : Option (List ℚ × List ℚ) :=
  let n := (100 - value) / 100
  if n = 0 then none else some (stereo_widering_core wave value)

/-- `stereo_narrowing` applied to a 2-D array of exactly two channel rows,
as called (guarded by `mix.shape[0] == 2`) from `run_single_file`. -/
def stereo_narrowing_nd (a : NDArray) (value : ℚ) : NDArray :=
  match a with
  | .d2 [w0, w1] =>
    let p := stereo_narrowing (w0, w1) value
    .d2 [p.1, p.2]
  | x => x

/-- `stereo_widering` on a stem array of channel rows: rows 0 and 1 are
rewritten, further rows are untouched; `none` models the exception
(ZeroDivisionError for `value = 100`, IndexError when fewer than two
rows exist). -/
def stereo_widering_rows (wave : List (List ℚ)) (value : ℚ) : Option (List (List ℚ)) :=
  match wave with
  | w0 :: w1 :: rest => (stereo_widering (w0, w1) value).map (fun p => p.1 :: p.2 :: rest)
  | _ => none

/-- Total counterpart of `stereo_widering_rows` for statements: the
widening arithmetic on rows 0 and 1. -/
def stereo_widering_rows_core (wave : List (List ℚ)) (value : ℚ) : List (List ℚ) :=
  match wave with
  | w0 :: w1 :: rest =>
      (stereo_widering_core (w0, w1) value).1 :: (stereo_widering_core (w0, w1) value).2 :: rest
  | l => l

/-- `os.path.basename`: the final path component (the part after the last
slash). -/
def basename (p : String) : String :=
  String.mk ((p.data.reverse.takeWhile (fun c => c ≠ '/')).reverse)

/-- Python string slicing `s[:-4]`: the string without its last four
characters (empty when `s` has at most four characters). -/
def sliceMinus4 (s : String) : String :=
  String.mk (s.data.take (s.data.length - 4))

/-- The stem-output path built by both writers (`inference.py` lines 88,
90, 131): the format string
`"STOREDIR/BASENAME[:-4]_INSTR.wav"` applied to the store directory, the
basename of the input path with its last four characters removed, and the
instrument name. -/
def output_path (store_dir input_path instr : String) : String :=
  store_dir ++ "/" ++ sliceMinus4 (basename input_path) ++ "_" ++ instr ++ ".wav"

/-- Elementwise numpy subtraction of two aligned 2-D buffers
(`mix - res['vocals'].T`, `inference.py` line 135). -/
def sub2 (m w : List (List ℚ)) : List (List ℚ) :=
  List.zipWith (fun r s => List.zipWith (fun a b => a - b) r s) m w

/-- `np.stack([mix, mix], axis=-1)` under `len(mix.shape) == 1`
(`inference.py` lines 72-73 and 122-123): a 1-D buffer of `N` samples
becomes an `(N, 2)` array with both columns equal; 2-D buffers pass
through untouched. -/
def mono_to_stereo : NDArray → NDArray
  | .d1 l => .d2 (l.map (fun x => [x, x]))
  | a => a

/-- `config.training` as consumed by the runners: the instrument list and
the optional target instrument (`inference.py` lines 81-83, 99-101). -/
structure TrainingConfig where
  instruments : List String
  target_instrument : Option String
deriving DecidableEq

/-- Lines 81-83 / 99-101: the instrument set actually written, narrowed to
the target instrument when one is configured. -/
def effective_instruments (c : TrainingConfig) : List String :=
  match c.target_instrument with
  | some t => [t]
  | none => c.instruments

/-- How a single-file run ends early: `inputMissing` is the
`"Input file doesn't exist!"` report (line 48), `readError` the
`"Can read track"` report from the `except` branch (lines 66-69), and
`uncaught` an exception raised past the run boundary (the
ZeroDivisionError of `stereo_widering` inside the write loop). -/
inductive RunError where
  | inputMissing
  | readError
  | uncaught
deriving DecidableEq

/-- The per-invocation configuration consumed by `run_single_file`. -/
structure SingleArgs where
  input_file : String
  store_dir : String
  stereo_narrowing : ℚ
deriving DecidableEq

/-- The `try` block of `run_single_file` (lines 54-65): compute
`is_stereo` from the loaded shape, narrow when requested and stereo,
transpose, record the pre-padding sample count, and append
`5 * sr` rows of silence.  `none` models the caught exception: for a 1-D
(mono) buffer `mix.shape[1]` raises IndexError, so the run reports
`Can read track` and returns. -/
def try_prepare (mix0 : NDArray) (sr : Nat) (v : ℚ) : Option (NDArray × Nat × Bool) :=
  let is_stereo : Bool := (ndshape mix0).headD 0 == 2
  let mix := if v ≠ 0 ∧ is_stereo = true then stereo_narrowing_nd mix0 v else mix0
  let mix := transposeND mix
  let original_length := (ndshape mix).headD 0
  match (ndshape mix).get? 1 with
  | none => none
  | some cols =>
    some (vstack mix (NDArray.d2 (List.replicate (5 * sr) (List.replicate cols 0))),
          original_length, is_stereo)

/-- The write loop of `run_single_file` (lines 85-90): each stem is sliced
back to `original_length` samples; when narrowing was applied on input the
stem is widened with the same parameter before writing.  Returns the writes
performed (path, data written, i.e. the stem transposed for `sf.write`)
and the exception, if any, that aborts the loop. -/
def write_stems (res : String → List (List ℚ)) (original_length : Nat)
    (store_dir input_file : String) (v : ℚ) (is_stereo : Bool) :
    List String → List (String × List (List ℚ)) × Option RunError
  | [] => ([], none)
  | instr :: rest =>
    let sliced := (res instr).map (fun ch => ch.take original_length)
    if v ≠ 0 ∧ is_stereo = true then
      match stereo_widering_rows sliced v with
      | none => ([], some .uncaught)
      | some wid =>
        let r := write_stems res original_length store_dir input_file v is_stereo rest
        ((output_path store_dir input_file instr, transpose2 wid) :: r.1, r.2)
    else
      let r := write_stems res original_length store_dir input_file v is_stereo rest
      ((output_path store_dir input_file instr, transpose2 sliced) :: r.1, r.2)

/-- `run_single_file` (lines 41-90).  `isfile t` is the result of
`os.path.isfile` after `t` one-second waits (checked at `t = 0`, and, if
that fails, once more at `t = 1` after the single `time.sleep(1)`).
`load_result` is the outcome of `librosa.load` (`none` = decode error,
absorbed by the same `try` block as the preparation steps).  `demix`
abstracts the separation engine: it maps the prepared mixture and an
instrument name to that stem (channels x samples).  The result is the
list of writes performed and how the run ended. -/
def run_single_file (isfile : Nat → Bool) (load_result : Option (NDArray × Nat))
    (demix : NDArray → String → List (List ℚ)) (config : TrainingConfig)
    (args : SingleArgs) : List (String × List (List ℚ)) × Option RunError :=
  if isfile 0 = true ∨ isfile 1 = true then
    match load_result with
    | none => ([], some .readError)
    | some (mixLoaded, sr) =>
      match try_prepare mixLoaded sr args.stereo_narrowing with
      | none => ([], some .readError)
      | some (mix, original_length, is_stereo) =>
        let mix := mono_to_stereo mix
        let mixture := transposeND mix
        let res := demix mixture
        write_stems res original_length args.store_dir args.input_file
          args.stereo_narrowing is_stereo (effective_instruments config)
  else ([], some .inputMissing)

/-- One iteration of the `run_folder` loop for a readable file
(lines 114-135): load, transpose, mono-to-stereo, demix, write one stem
per instrument exactly as returned by the engine, then, when the
instrument set includes `vocals` and instrumental extraction was
requested, write `mix - res['vocals'].T` computed on the un-narrowed,
un-padded mixture. -/
def process_file (demix : NDArray → String → List (List ℚ)) (instruments : List String)
    (store_dir : String) (extract_instrumental : Bool) (path : String)
    (mixLoaded : NDArray) : List (String × List (List ℚ)) :=
  let mix := transposeND mixLoaded
  let mix := mono_to_stereo mix
  let mixture := transposeND mix
  let res := demix mixture
  instruments.map (fun instr => (output_path store_dir path instr, transpose2 (res instr)))
    ++ (if "vocals" ∈ instruments ∧ extract_instrumental = true then
          [(output_path store_dir path "instrumental",
            sub2 (ndRows mix) (transpose2 (res "vocals")))]
        else [])

/-- `run_folder` (lines 93-138) over an enumerated file list; each file
carries its load outcome (`none` = the load raised, caught by the
per-file `try`).  Returns the log lines of skipped files and all writes,
in iteration order. -/
def run_folder (demix : NDArray → String → List (List ℚ)) (config : TrainingConfig)
    (store_dir : String) (extract_instrumental : Bool) :
    List (String × Option (NDArray × Nat)) → List String × List (String × List (List ℚ))
  | [] => ([], [])
  | (path, none) :: rest =>
    let r := run_folder demix config store_dir extract_instrumental rest
    (("Can read track: " ++ path) :: r.1, r.2)
  | (path, some (a, _)) :: rest =>
    let r := run_folder demix config store_dir extract_instrumental rest
    (r.1, process_file demix (effective_instruments config) store_dir
            extract_instrumental path a ++ r.2)

/-- `proc_single_file` argument handling for `--stereo_narrowing`
(lines 280-285): the parser accepts every integer (`type=int`,
`default=0`) and performs no validation whatsoever before the run
starts. -/
def stereo_narrowing_arg_accepted (_v : Int) : Bool := true

/-! ## Helper lemmas -/

lemma zipWith_fuse (f g h : ℚ → ℚ → ℚ) :
    ∀ (c0 c1 : List ℚ),
      List.zipWith h (List.zipWith f c0 c1) (List.zipWith g c0 c1)
        = List.zipWith (fun a b => h (f a b) (g a b)) c0 c1 := by
  intro c0
  induction c0 with
  | nil => intro c1; simp
  | cons a as ih =>
    intro c1
    cases c1 with
    | nil => simp
    | cons b bs => simp [ih]

lemma zipWith_fst (c0 c1 : List ℚ) (h : c0.length = c1.length) :
    List.zipWith (fun a _ => a) c0 c1 = c0 := by
  induction c0 generalizing c1 with
  | nil => simp
  | cons a as ih =>
    cases c1 with
    | nil => simp at h
    | cons b bs =>
      simp only [List.zipWith]
      simp only [List.length_cons, Nat.succ.injEq] at h
      rw [ih bs h]

lemma zipWith_snd (c0 c1 : List ℚ) (h : c0.length = c1.length) :
    List.zipWith (fun _ b => b) c0 c1 = c1 := by
  induction c0 generalizing c1 with
  | nil => cases c1 with
    | nil => rfl
    | cons b bs => simp at h
  | cons a as ih =>
    cases c1 with
    | nil => simp at h
    | cons b bs =>
      simp only [List.zipWith]
      simp only [List.length_cons, Nat.succ.injEq] at h
      rw [ih bs h]

lemma zipWith_congr_fun (f g : ℚ → ℚ → ℚ) (h : ∀ a b, f a b = g a b)
    (c0 c1 : List ℚ) : List.zipWith f c0 c1 = List.zipWith g c0 c1 := by
  have hfg : f = g := funext fun a => funext fun b => h a b
  rw [hfg]

lemma zipWith_swap_fuse (F G H : ℚ → ℚ → ℚ)
    (hp : ∀ a b, G (F a b) (F b a) = H a b) (c0 c1 : List ℚ) :
    List.zipWith G (List.zipWith F c0 c1) (List.zipWith F c1 c0)
      = List.zipWith H c0 c1 := by
  rw [List.zipWith_comm F c1 c0, zipWith_fuse]
  exact zipWith_congr_fun _ _ hp c0 c1

lemma widen_divisor_ne_zero (v : ℚ) (hv : v ≠ 100) : (100 - v) / 100 ≠ 0 := by
  intro h
  rw [div_eq_zero_iff] at h
  rcases h with h | h
  · exact hv (by linarith)
  · norm_num at h

/-! ## C1: narrow/widen round trip -/

/-- C1.  For every 2-channel waveform (two equal-length channels of exact
rational samples) and every width parameter `v ≠ 100`,
`stereo_widering (stereo_narrowing w v) v` returns the original waveform
exactly. -/
theorem stereo_narrow_widen_roundtrip (c0 c1 : List ℚ) (v : ℚ)
    (hlen : c0.length = c1.length) (hv : v ≠ 100) :
    stereo_widering (stereo_narrowing (c0, c1) v) v = some (c0, c1) := by
  have hn := widen_divisor_ne_zero v hv
  simp only [stereo_narrowing, stereo_widering, stereo_widering_core, if_neg hn]
  have h100 : (100 : ℚ) - v ≠ 0 := sub_ne_zero.mpr (Ne.symm hv)
  refine congrArg some (Prod.ext ?_ ?_)
  · exact (zipWith_swap_fuse _ _ (fun a _ => a)
      (fun a b => by field_simp; ring) c0 c1).trans (zipWith_fst c0 c1 hlen)
  · exact (zipWith_swap_fuse _ _ (fun a _ => a)
      (fun a b => by field_simp; ring) c1 c0).trans (zipWith_fst c1 c0 hlen.symm)

/-- Witness for C1 at a concrete waveform and parameter. -/
theorem stereo_narrow_widen_roundtrip_w :
    (([(1:ℚ), 2].length = [(3:ℚ), 4].length) ∧ ((30:ℚ) ≠ 100))
      ∧ stereo_widering (stereo_narrowing ([1, 2], [3, 4]) 30) 30 = some ([1, 2], [3, 4]) :=
  ⟨⟨rfl, by norm_num⟩, stereo_narrow_widen_roundtrip [1, 2] [3, 4] 30 rfl (by norm_num)⟩

/-! ## C10: per-sample channel-sum preservation -/

/-- C10.  Both transforms preserve the per-sample sum of the two channels
exactly: narrowing always, widening whenever it is defined (`v ≠ 100`). -/
theorem stereo_transforms_preserve_sum (c0 c1 : List ℚ) (v : ℚ) (hv : v ≠ 100) :
    List.zipWith (fun a b => a + b) (stereo_narrowing (c0, c1) v).1
        (stereo_narrowing (c0, c1) v).2
      = List.zipWith (fun a b => a + b) c0 c1
    ∧ (stereo_widering (c0, c1) v).map
        (fun p => List.zipWith (fun a b => a + b) p.1 p.2)
      = some (List.zipWith (fun a b => a + b) c0 c1) := by
  have hn := widen_divisor_ne_zero v hv
  constructor
  · simp only [stereo_narrowing]
    exact zipWith_swap_fuse _ _ _ (fun a b => by ring) c0 c1
  · simp only [stereo_widering, stereo_widering_core, if_neg hn, Option.map_some']
    have h100 : (100 : ℚ) - v ≠ 0 := sub_ne_zero.mpr (Ne.symm hv)
    refine congrArg some ?_
    exact zipWith_swap_fuse _ _ _ (fun a b => by field_simp; ring) c0 c1

/-- Witness for C10 at a concrete waveform and parameter. -/
theorem stereo_transforms_preserve_sum_w :
    ((30:ℚ) ≠ 100)
      ∧ (List.zipWith (fun a b => a + b) (stereo_narrowing ([(1:ℚ), 2], [4, 8]) 30).1
             (stereo_narrowing ([(1:ℚ), 2], [4, 8]) 30).2
           = List.zipWith (fun a b => a + b) [(1:ℚ), 2] [4, 8]
         ∧ (stereo_widering ([(1:ℚ), 2], [4, 8]) 30).map
             (fun p => List.zipWith (fun a b => a + b) p.1 p.2)
           = some (List.zipWith (fun a b => a + b) [(1:ℚ), 2] [4, 8])) :=
  ⟨by norm_num, stereo_transforms_preserve_sum [1, 2] [4, 8] 30 (by norm_num)⟩

/-! ## C2: the degenerate width parameter v = 100 -/

/-- C2 (code bug).  The configuration stage accepts `v = 100`
unconditionally, the widening transform raises (returns `none`, modelling
the Python ZeroDivisionError) at that value, and a concrete single-file
run with `--stereo_narrowing 100` on a stereo input proceeds all the way
to the write loop and only there dies with the uncaught division by zero:
the degenerate value is discovered mid-run, not rejected at configuration
time. -/
theorem degenerate_width_reached_mid_run :
    stereo_narrowing_arg_accepted 100 = true
    ∧ stereo_widering (([1], [0]) : List ℚ × List ℚ) 100 = none
    ∧ run_single_file (fun _ => true) (some (.d2 [[1, 0], [0, 1]], 1))
        (fun _ _ => [[1, 0, 0, 0, 0, 0, 0], [0, 1, 0, 0, 0, 0, 0]])
        ⟨["vocals"], none⟩ ⟨"in/x.mp3", "out", 100⟩
      = ([], some RunError.uncaught) := by
  refine ⟨rfl, ?_, ?_⟩
  · norm_num [stereo_widering]
  · norm_num [run_single_file, try_prepare, ndshape, stereo_narrowing_nd,
      stereo_narrowing, transposeND, transpose2, transposeCols, vstack,
      mono_to_stereo, write_stems, effective_instruments,
      stereo_widering_rows, stereo_widering, List.zipWith]

/-! ## C3: mono input in a single-file run -/

/-- C3 (code bug).  A mono (1-D) loaded buffer makes the `try` block of
`run_single_file` raise (`mix.shape[1]` on a 1-D array is an IndexError)
before the mono-to-stereo duplication of line 72 is ever reached, so the
single-file run reports a read failure and returns with no output instead
of duplicating the channel and proceeding. -/
theorem mono_single_file_run_fails :
    try_prepare (.d1 [1, 0, 1/2]) 44100 0 = none
    ∧ run_single_file (fun _ => true) (some (.d1 [1, 0, 1/2], 44100))
        (fun _ _ => [[0], [0]]) ⟨["vocals"], none⟩ ⟨"in/x.mp3", "out", 0⟩
      = ([], some RunError.readError)
    ∧ mono_to_stereo (.d1 [1, 0, 1/2]) = .d2 [[1, 1], [0, 0], [1/2, 1/2]] :=
  ⟨rfl, rfl, rfl⟩

/-! ## Shape lemmas for the prepared mixture -/

lemma length_transposeCols : ∀ (n : Nat) (m : List (List ℚ)),
    (transposeCols n m).length = n := by
  intro n
  induction n with
  | zero => intro m; rfl
  | succ k ih => intro m; simp [transposeCols, ih]

lemma length_transpose2 (m : List (List ℚ)) :
    (transpose2 m).length = (m.headD []).length := by
  simp [transpose2, length_transposeCols]

lemma headD_transpose2 (m : List (List ℚ)) (h : 0 < (m.headD []).length) :
    (transpose2 m).headD [] = m.map (fun r => r.headD 0) := by
  unfold transpose2
  rcases hL : (m.headD []).length with _ | k
  · omega
  · simp [transposeCols]

lemma stereo_narrowing_len1 (c0 c1 : List ℚ) (v : ℚ) (h : c0.length = c1.length) :
    (stereo_narrowing (c0, c1) v).1.length = c0.length := by
  simp [stereo_narrowing, h]

lemma stereo_narrowing_len2 (c0 c1 : List ℚ) (v : ℚ) (h : c0.length = c1.length) :
    (stereo_narrowing (c0, c1) v).2.length = c0.length := by
  simp [stereo_narrowing, h]

lemma ndshape_transpose_two (a0 a1 : List ℚ) (_h : a0.length = a1.length)
    (hpos : 0 < a0.length) :
    ndshape (transposeND (NDArray.d2 [a0, a1])) = [a0.length, 2] := by
  simp only [transposeND, ndshape]
  rw [length_transpose2, headD_transpose2]
  · simp
  · simpa using hpos

lemma try_prepare_stereo (c0 c1 : List ℚ) (sr : Nat) (v : ℚ)
    (hlen : c0.length = c1.length) (hpos : 0 < c0.length) :
    try_prepare (NDArray.d2 [c0, c1]) sr v
      = some (NDArray.d2
          (transpose2 (ndRows (if v = 0 then NDArray.d2 [c0, c1]
              else stereo_narrowing_nd (NDArray.d2 [c0, c1]) v))
            ++ List.replicate (5 * sr) (List.replicate 2 0)),
          c0.length, true) := by
  have hstereo : (((ndshape (NDArray.d2 [c0, c1])).headD 0 == 2) = true) := by
    simp [ndshape]
  by_cases hv : v = 0
  · have hcond : ¬(v ≠ 0 ∧ (((ndshape (NDArray.d2 [c0, c1])).headD 0 == 2) = true)) := by
      simp [hv]
    rw [if_pos hv]
    simp only [try_prepare]
    rw [if_neg hcond, ndshape_transpose_two c0 c1 hlen hpos]
    simp [transposeND, vstack, ndRows, hstereo, ndshape]
  · have hcond : v ≠ 0 ∧ (((ndshape (NDArray.d2 [c0, c1])).headD 0 == 2) = true) :=
      ⟨hv, hstereo⟩
    rw [if_neg hv]
    simp only [try_prepare]
    rw [if_pos hcond]
    have hnd : stereo_narrowing_nd (NDArray.d2 [c0, c1]) v
        = NDArray.d2 [(stereo_narrowing (c0, c1) v).1, (stereo_narrowing (c0, c1) v).2] := rfl
    rw [hnd, ndshape_transpose_two _ _ ((stereo_narrowing_len1 c0 c1 v hlen).trans
      (stereo_narrowing_len2 c0 c1 v hlen).symm)
      (by rw [stereo_narrowing_len1 c0 c1 v hlen]; exact hpos)]
    rw [stereo_narrowing_len1 c0 c1 v hlen]
    simp [transposeND, vstack, ndRows, hstereo, ndshape]

lemma prepared_signal_length (c0 c1 : List ℚ) (v : ℚ) (hlen : c0.length = c1.length) :
    (transpose2 (ndRows (if v = 0 then NDArray.d2 [c0, c1]
        else stereo_narrowing_nd (NDArray.d2 [c0, c1]) v))).length = c0.length := by
  by_cases hv : v = 0
  · rw [if_pos hv]
    simp [ndRows, length_transpose2]
  · rw [if_neg hv]
    have hnd : stereo_narrowing_nd (NDArray.d2 [c0, c1]) v
        = NDArray.d2 [(stereo_narrowing (c0, c1) v).1, (stereo_narrowing (c0, c1) v).2] := rfl
    rw [hnd]
    simp [ndRows, length_transpose2, stereo_narrowing_len1 c0 c1 v hlen]

/-! ## C4: silence padding and truncation -/

/-- C4.  A stereo single-file preparation appends exactly `5 * sr` rows of
silence after the (possibly narrowed) signal, records the pre-padding
sample count (`c0.length`) as `original_length`, and the later slice
`res[instr][:, :original_length]` of any engine output with at least that
many samples has exactly the original, pre-padding sample count. -/
theorem padding_roundtrip (c0 c1 : List ℚ) (sr : Nat) (v : ℚ) (stem : List ℚ)
    (hlen : c0.length = c1.length) (hpos : 0 < c0.length)
    (hstem : c0.length ≤ stem.length) :
    try_prepare (NDArray.d2 [c0, c1]) sr v
        = some (NDArray.d2
            (transpose2 (ndRows (if v = 0 then NDArray.d2 [c0, c1]
                else stereo_narrowing_nd (NDArray.d2 [c0, c1]) v))
              ++ List.replicate (5 * sr) (List.replicate 2 0)),
            c0.length, true)
      ∧ (transpose2 (ndRows (if v = 0 then NDArray.d2 [c0, c1]
            else stereo_narrowing_nd (NDArray.d2 [c0, c1]) v))).length = c0.length
      ∧ (stem.take c0.length).length = c0.length := by
  refine ⟨try_prepare_stereo c0 c1 sr v hlen hpos, prepared_signal_length c0 c1 v hlen, ?_⟩
  rw [List.length_take]
  omega

/-- Witness for C4 at a concrete stereo waveform, rate and engine stem. -/
theorem padding_roundtrip_w :
    (([(1:ℚ), 2].length = [(3:ℚ), 4].length) ∧ 0 < [(1:ℚ), 2].length
        ∧ [(1:ℚ), 2].length ≤ ([0, 0, 0, 0, 0, 0, 0] : List ℚ).length)
    ∧ (try_prepare (NDArray.d2 [[1, 2], [3, 4]]) 1 0
          = some (NDArray.d2
              (transpose2 (ndRows (if (0:ℚ) = 0 then NDArray.d2 [[1, 2], [3, 4]]
                  else stereo_narrowing_nd (NDArray.d2 [[1, 2], [3, 4]]) 0))
                ++ List.replicate (5 * 1) (List.replicate 2 0)),
              [(1:ℚ), 2].length, true)
        ∧ (transpose2 (ndRows (if (0:ℚ) = 0 then NDArray.d2 [[1, 2], [3, 4]]
              else stereo_narrowing_nd (NDArray.d2 [[1, 2], [3, 4]]) 0))).length
            = [(1:ℚ), 2].length
        ∧ (([(0:ℚ), 0, 0, 0, 0, 0, 0]).take [(1:ℚ), 2].length).length = [(1:ℚ), 2].length) :=
  ⟨⟨rfl, by norm_num, by norm_num⟩,
    padding_roundtrip [1, 2] [3, 4] 1 0 [0, 0, 0, 0, 0, 0, 0] rfl (by norm_num) (by norm_num)⟩

/-! ## C6: batch fault isolation -/

/-- C6.  A batch run is a total function of the per-file load outcomes:
every unreadable file produces exactly one `Can read track` log line and
nothing else, every readable file is processed and contributes exactly its
own writes, in enumeration order, and no exception escapes the loop (the
per-file failure is absorbed by the `continue`, as the equality below
factors the whole run through the list of readable files). -/
theorem batch_fault_isolation (demix : NDArray → String → List (List ℚ))
    (config : TrainingConfig) (store_dir : String) (extract_instrumental : Bool)
    (files : List (String × Option (NDArray × Nat))) :
    run_folder demix config store_dir extract_instrumental files
      = (files.filterMap (fun f => match f.2 with
            | none => some ("Can read track: " ++ f.1)
            | some _ => none),
         (files.filterMap (fun f => f.2.map (fun a => (f.1, a.1)))).flatMap
           (fun pa => process_file demix (effective_instruments config) store_dir
              extract_instrumental pa.1 pa.2)) := by
  induction files with
  | nil => rfl
  | cons f rest ih =>
    obtain ⟨path, loaded⟩ := f
    cases loaded with
    | none => simp [run_folder, ih, List.filterMap_cons]
    | some a =>
      obtain ⟨arr, sr⟩ := a
      simp [run_folder, ih, List.filterMap_cons]

/-! ## C7: output naming -/

/-- C7 counterexample.  The writers strip the last four characters of the
basename, not its extension: for input `song.flac` and stem `vocals` the
written path is `out/song._vocals.wav`, not the claimed
`out/song_vocals.wav`. -/
theorem naming_flac_counterexample :
    output_path "out" "song.flac" "vocals" = "out/song._vocals.wav"
    ∧ output_path "out" "song.flac" "vocals" ≠ "out/song_vocals.wav" := by
  constructor <;> decide

/-- C7 amended.  The stem path is
`STOREDIR/BASENAME-minus-last-4-characters_INSTR.wav`; this coincides with
stripping the extension exactly when the extension is three characters
long (so `song.mp3` with stem `vocals` yields `STOREDIR/song_vocals.wav`),
and for any other extension length it does not (see the counterexample). -/
theorem naming_rule_amended (dir p b e instr : String)
    (hb : basename p = b ++ "." ++ e) (he : e.length = 3) :
    output_path dir p instr = dir ++ "/" ++ b ++ "_" ++ instr ++ ".wav" := by
  unfold output_path
  rw [hb]
  suffices hs : sliceMinus4 (b ++ "." ++ e) = b by rw [hs]
  unfold sliceMinus4
  have hd : (b ++ "." ++ e).data = b.data ++ ('.' :: e.data) := by
    simp [String.data_append]
  have he3 : e.data.length = 3 := he
  rw [hd]
  have hlen : (b.data ++ ('.' :: e.data)).length = b.data.length + 4 := by
    simp [List.length_append, he3]
  rw [hlen, Nat.add_sub_cancel, List.take_left]

/-- Witness for the amended C7 rule at the spec's own example. -/
theorem naming_rule_amended_w :
    (basename "song.mp3" = "song" ++ "." ++ "mp3" ∧ ("mp3" : String).length = 3)
    ∧ output_path "store" "song.mp3" "vocals" = "store" ++ "/" ++ "song" ++ "_" ++ "vocals" ++ ".wav" :=
  ⟨⟨by decide, by decide⟩,
    naming_rule_amended "store" "song.mp3" "song" "mp3" "vocals" (by decide) (by decide)⟩

lemma write_stems_not_missing (res : String → List (List ℚ)) (L : Nat)
    (store input : String) (v : ℚ) (b : Bool) : ∀ instrs : List String,
    (write_stems res L store input v b instrs).2 ≠ some RunError.inputMissing := by
  intro instrs
  induction instrs with
  | nil => simp [write_stems]
  | cons i rest ih =>
    simp only [write_stems]
    by_cases hc : v ≠ 0 ∧ b = true
    · rw [if_pos hc]
      cases hw : stereo_widering_rows ((res i).map (fun ch => ch.take L)) v with
      | none => simp
      | some wid => simpa using ih
    · rw [if_neg hc]
      simpa using ih

/-! ## C8: single-file missing-input retry -/

/-- C8.  When the input file is absent at the initial check and still
absent at the single re-check made after the one-second wait (`f`), the
single-file run reports the missing input and returns with no writes and
no escaping exception; when the file is present at the re-check (`g`),
the run proceeds and never fails with the missing-input report.  The
runner consults the filesystem only at times 0 and 1: there is no further
retry. -/
theorem missing_input_single_retry (f g : Nat → Bool)
    (load_result : Option (NDArray × Nat)) (demix : NDArray → String → List (List ℚ))
    (config : TrainingConfig) (args : SingleArgs)
    (hf0 : f 0 = false) (hf1 : f 1 = false) (hg : g 1 = true) :
    run_single_file f load_result demix config args = ([], some RunError.inputMissing)
    ∧ (run_single_file g load_result demix config args).2 ≠ some RunError.inputMissing := by
  constructor
  · simp [run_single_file, hf0, hf1]
  · simp only [run_single_file]
    rw [if_pos (Or.inr hg)]
    cases load_result with
    | none => simp
    | some a =>
      obtain ⟨arr, sr⟩ := a
      dsimp only
      cases htp : try_prepare arr sr args.stereo_narrowing with
      | none => simp
      | some t =>
        obtain ⟨mix, L, bst⟩ := t
        exact write_stems_not_missing _ _ _ _ _ _ _

/-- Witness for C8 with a file that never appears and one that appears at
the re-check. -/
theorem missing_input_single_retry_w :
    ((fun _ : Nat => false) 0 = false ∧ (fun _ : Nat => false) 1 = false
        ∧ (fun _ : Nat => true) 1 = true)
    ∧ (run_single_file (fun _ => false) (some (.d2 [[1, 0], [0, 1]], 1))
          (fun _ _ => [[0], [0]]) ⟨["vocals"], none⟩ ⟨"in/x.mp3", "out", 0⟩
        = ([], some RunError.inputMissing)
      ∧ (run_single_file (fun _ => true) (some (.d2 [[1, 0], [0, 1]], 1))
            (fun _ _ => [[0], [0]]) ⟨["vocals"], none⟩ ⟨"in/x.mp3", "out", 0⟩).2
          ≠ some RunError.inputMissing) :=
  ⟨⟨rfl, rfl, rfl⟩,
    missing_input_single_retry (fun _ => false) (fun _ => true)
      (some (.d2 [[1, 0], [0, 1]], 1)) (fun _ _ => [[0], [0]])
      ⟨["vocals"], none⟩ ⟨"in/x.mp3", "out", 0⟩ rfl rfl rfl⟩

/-! ## sub2 lemmas (shape and elementwise value of `mix - vocals`) -/

lemma sub2_length (m w : List (List ℚ)) (h : m.length = w.length) :
    (sub2 m w).length = m.length := by
  simp [sub2, h]

lemma zipWith_sub_getD (r s : List ℚ) (h : r.length = s.length) (j : Nat) :
    (List.zipWith (fun a b => a - b) r s).getD j 0 = r.getD j 0 - s.getD j 0 := by
  induction r generalizing s j with
  | nil =>
    cases s with
    | nil => simp
    | cons b bs => simp at h
  | cons a as ih =>
    cases s with
    | nil => simp at h
    | cons b bs =>
      cases j with
      | zero => simp
      | succ k => simpa using ih bs (by simpa using h) k

lemma sub2_row_length (m : List (List ℚ)) : ∀ (w : List (List ℚ)) (i : Nat),
    m.length = w.length →
    (∀ k, (m.getD k []).length = (w.getD k []).length) →
    ((sub2 m w).getD i []).length = (m.getD i []).length := by
  induction m with
  | nil =>
    intro w i hlen _
    cases w with
    | nil => simp [sub2]
    | cons s ss => simp at hlen
  | cons r rs ih =>
    intro w i hlen hrow
    cases w with
    | nil => simp at hlen
    | cons s ss =>
      cases i with
      | zero =>
        have h0 : r.length = s.length := by simpa using hrow 0
        simp [sub2, h0]
      | succ k =>
        have hlen1 : rs.length = ss.length := by simpa using hlen
        have hrow1 : ∀ t, (rs.getD t []).length = (ss.getD t []).length := by
          intro t
          simpa using hrow (t + 1)
        simpa [sub2] using ih ss k hlen1 hrow1

lemma sub2_getD (m : List (List ℚ)) : ∀ (w : List (List ℚ)) (i j : Nat),
    m.length = w.length →
    (∀ k, (m.getD k []).length = (w.getD k []).length) →
    ((sub2 m w).getD i []).getD j 0
      = (m.getD i []).getD j 0 - (w.getD i []).getD j 0 := by
  induction m with
  | nil =>
    intro w i j hlen _
    cases w with
    | nil => simp [sub2]
    | cons s ss => simp at hlen
  | cons r rs ih =>
    intro w i j hlen hrow
    cases w with
    | nil => simp at hlen
    | cons s ss =>
      cases i with
      | zero =>
        have h0 : r.length = s.length := by simpa using hrow 0
        simpa [sub2] using zipWith_sub_getD r s h0 j
      | succ k =>
        have hlen1 : rs.length = ss.length := by simpa using hlen
        have hrow1 : ∀ t, (rs.getD t []).length = (ss.getD t []).length := by
          intro t
          simpa using hrow (t + 1)
        simpa [sub2] using ih ss k j hlen1 hrow1

/-! ## write_stems lemmas -/

lemma write_stems_names (res : String → List (List ℚ)) (L : Nat)
    (store input : String) (v : ℚ) (b : Bool) : ∀ instrs : List String,
    (write_stems res L store input v b instrs).2 = none →
    (write_stems res L store input v b instrs).1.map Prod.fst
      = instrs.map (fun instr => output_path store input instr) := by
  intro instrs
  induction instrs with
  | nil => intro _; rfl
  | cons i rest ih =>
    intro hok
    simp only [write_stems] at hok ⊢
    by_cases hc : v ≠ 0 ∧ b = true
    · rw [if_pos hc] at hok ⊢
      cases hw : stereo_widering_rows ((res i).map (fun ch => ch.take L)) v with
      | none => rw [hw] at hok; simp at hok
      | some wid =>
        rw [hw] at hok
        simp at hok
        simp [ih hok]
    · rw [if_neg hc] at hok ⊢
      simp only [List.map_cons]
      rw [ih hok]

lemma stereo_widering_rows_some (w0 w1 : List ℚ) (rest : List (List ℚ)) (v : ℚ)
    (hv : v ≠ 100) :
    stereo_widering_rows (w0 :: w1 :: rest) v
      = some (stereo_widering_rows_core (w0 :: w1 :: rest) v) := by
  have h100 : (100 : ℚ) - v ≠ 0 := sub_ne_zero.mpr (Ne.symm hv)
  simp [stereo_widering_rows, stereo_widering, stereo_widering_rows_core,
    widen_divisor_ne_zero v hv, h100]

lemma write_stems_widen_ok (res : String → List (List ℚ)) (L : Nat)
    (store input : String) (v : ℚ) (hv0 : v ≠ 0) (hv : v ≠ 100) :
    ∀ instrs : List String, (∀ i, i ∈ instrs → 2 ≤ (res i).length) →
    write_stems res L store input v true instrs
      = (instrs.map (fun i => (output_path store input i,
           transpose2 (stereo_widering_rows_core ((res i).map (fun ch => ch.take L)) v))),
         none) := by
  intro instrs
  induction instrs with
  | nil => intro _; rfl
  | cons i rest ih =>
    intro hres
    simp only [write_stems]
    rw [if_pos ⟨hv0, trivial⟩]
    have h2 : 2 ≤ (res i).length := hres i (List.mem_cons_self i rest)
    obtain ⟨w0, w1, tail, hw⟩ :
        ∃ w0 w1 tail, (res i).map (fun ch => ch.take L) = w0 :: w1 :: tail := by
      cases hr : res i with
      | nil => rw [hr] at h2; simp at h2
      | cons x xs =>
        cases xs with
        | nil => rw [hr] at h2; simp at h2
        | cons y ys => exact ⟨_, _, _, rfl⟩
    rw [hw, stereo_widering_rows_some _ _ _ _ hv]
    rw [ih (fun t ht => hres t (List.mem_cons_of_mem i ht))]
    simp [hw]

/-! ## C5: derived instrumental stem -/

/-- C5.  In batch mode, when the effective instrument set includes
`vocals` and instrumental extraction was requested, the file's writes end
with the extra stem `instrumental = mix - vocals`, computed on the
un-narrowed, un-padded batch mixture (batch mode never narrows or pads);
the derived buffer has the mixture's shape and each sample is the exact
difference; and the single-file write loop only ever writes the
configured instruments, so the derived stem is a batch-mode-only
feature. -/
theorem instrumental_derived_stem
    (demix : NDArray → String → List (List ℚ)) (instruments : List String)
    (store_dir path : String) (a : NDArray) (m w : List (List ℚ)) (i j : Nat)
    (res2 : String → List (List ℚ)) (L : Nat) (store2 input2 : String)
    (v2 : ℚ) (b2 : Bool) (instrs2 : List String)
    (hvoc : "vocals" ∈ instruments)
    (hm : m = ndRows (mono_to_stereo (transposeND a)))
    (hw : w = transpose2 (demix (transposeND (mono_to_stereo (transposeND a))) "vocals"))
    (hlen : m.length = w.length)
    (hrow : ∀ k, (m.getD k []).length = (w.getD k []).length)
    (hok : (write_stems res2 L store2 input2 v2 b2 instrs2).2 = none) :
    process_file demix instruments store_dir true path a
      = instruments.map (fun instr => (output_path store_dir path instr,
          transpose2 (demix (transposeND (mono_to_stereo (transposeND a))) instr)))
        ++ [(output_path store_dir path "instrumental", sub2 m w)]
    ∧ (sub2 m w).length = m.length
    ∧ ((sub2 m w).getD i []).length = (m.getD i []).length
    ∧ ((sub2 m w).getD i []).getD j 0 = (m.getD i []).getD j 0 - (w.getD i []).getD j 0
    ∧ (write_stems res2 L store2 input2 v2 b2 instrs2).1.map Prod.fst
        = instrs2.map (fun instr => output_path store2 input2 instr) := by
  subst hm hw
  refine ⟨?_, sub2_length _ _ hlen, sub2_row_length _ _ i hlen hrow,
    sub2_getD _ _ i j hlen hrow, write_stems_names _ _ _ _ _ _ _ hok⟩
  simp only [process_file]
  rw [if_pos ⟨hvoc, trivial⟩]

/-! ## C9: batch writes raw engine output, single-file truncates and widens -/

/-- C9.  In batch mode every written stem is exactly the engine's output
(only transposed into the writer's samples-by-channels layout): no slice
to a pre-padding length and no widening is applied.  The single-file
write loop, with narrowing active (`v ≠ 0`) on a stereo input and any
non-degenerate `v ≠ 100`, writes each stem sliced to `original_length`
samples and then widened with the same parameter. -/
theorem batch_vs_single_postprocessing
    (demix : NDArray → String → List (List ℚ)) (instruments : List String)
    (store folderPath inputFile : String) (a : NDArray)
    (res : String → List (List ℚ)) (L : Nat) (v : ℚ)
    (hv0 : v ≠ 0) (hv100 : v ≠ 100)
    (hres : ∀ i, i ∈ instruments → 2 ≤ (res i).length) :
    process_file demix instruments store false folderPath a
      = instruments.map (fun instr => (output_path store folderPath instr,
          transpose2 (demix (transposeND (mono_to_stereo (transposeND a))) instr)))
    ∧ write_stems res L store inputFile v true instruments
      = (instruments.map (fun instr => (output_path store inputFile instr,
           transpose2 (stereo_widering_rows_core
             ((res instr).map (fun ch => ch.take L)) v))), none) := by
  constructor
  · simp [process_file]
  · exact write_stems_widen_ok res L store inputFile v hv0 hv100 instruments hres

/-- Witness for C5 at a concrete batch file, engine and alignment. -/
theorem instrumental_derived_stem_w :
    ("vocals" ∈ ["vocals"]
      ∧ ([[(1:ℚ), 2], [3, 4]]
          = ndRows (mono_to_stereo (transposeND (NDArray.d2 [[1, 3], [2, 4]]))))
      ∧ ([[(1:ℚ), 3], [2, 4]]
          = transpose2 ((fun (_ : NDArray) (_ : String) => [[(1:ℚ), 2], [3, 4]])
              (transposeND (mono_to_stereo (transposeND (NDArray.d2 [[1, 3], [2, 4]]))))
              "vocals"))
      ∧ ([[(1:ℚ), 2], [3, 4]].length = [[(1:ℚ), 3], [2, 4]].length)
      ∧ (∀ k, (([[(1:ℚ), 2], [3, 4]]).getD k []).length
            = (([[(1:ℚ), 3], [2, 4]]).getD k []).length)
      ∧ (write_stems (fun _ => [[0], [0]]) 1 "out2" "in/y.mp3" 0 false ["vocals"]).2 = none)
    ∧ (process_file (fun _ _ => [[(1:ℚ), 2], [3, 4]]) ["vocals"] "out" true "in/song.mp3"
          (NDArray.d2 [[1, 3], [2, 4]])
        = (["vocals"]).map (fun instr => (output_path "out" "in/song.mp3" instr,
            transpose2 ((fun (_ : NDArray) (_ : String) => [[(1:ℚ), 2], [3, 4]])
              (transposeND (mono_to_stereo (transposeND (NDArray.d2 [[1, 3], [2, 4]]))))
              instr)))
          ++ [(output_path "out" "in/song.mp3" "instrumental",
               sub2 [[(1:ℚ), 2], [3, 4]] [[(1:ℚ), 3], [2, 4]])]
      ∧ (sub2 [[(1:ℚ), 2], [3, 4]] [[(1:ℚ), 3], [2, 4]]).length
          = [[(1:ℚ), 2], [3, 4]].length
      ∧ ((sub2 [[(1:ℚ), 2], [3, 4]] [[(1:ℚ), 3], [2, 4]]).getD 0 []).length
          = (([[(1:ℚ), 2], [3, 4]]).getD 0 []).length
      ∧ ((sub2 [[(1:ℚ), 2], [3, 4]] [[(1:ℚ), 3], [2, 4]]).getD 0 []).getD 1 0
          = (([[(1:ℚ), 2], [3, 4]]).getD 0 []).getD 1 0
            - (([[(1:ℚ), 3], [2, 4]]).getD 0 []).getD 1 0
      ∧ (write_stems (fun _ => [[0], [0]]) 1 "out2" "in/y.mp3" 0 false ["vocals"]).1.map Prod.fst
          = (["vocals"]).map (fun instr => output_path "out2" "in/y.mp3" instr)) :=
  ⟨⟨by decide, rfl, rfl, rfl, by intro k; rcases k with _ | _ | k <;> rfl, rfl⟩,
    instrumental_derived_stem (fun _ _ => [[(1:ℚ), 2], [3, 4]]) ["vocals"] "out"
      "in/song.mp3" (NDArray.d2 [[1, 3], [2, 4]]) [[(1:ℚ), 2], [3, 4]] [[(1:ℚ), 3], [2, 4]]
      0 1 (fun _ => [[0], [0]]) 1 "out2" "in/y.mp3" 0 false ["vocals"]
      (by decide) rfl rfl rfl (by intro k; rcases k with _ | _ | k <;> rfl) rfl⟩

/-- Witness for C9 at a concrete engine, waveform and parameter. -/
theorem batch_vs_single_postprocessing_w :
    (((30:ℚ) ≠ 0) ∧ ((30:ℚ) ≠ 100)
        ∧ (∀ i, i ∈ ["vocals"] → 2 ≤ ((fun (_ : String) => [[(1:ℚ), 2, 3], [4, 5, 6]]) i).length))
    ∧ (process_file (fun _ _ => [[(5:ℚ), 6], [7, 8]]) ["vocals"] "out" false "in/a.mp3"
          (NDArray.d2 [[1, 0], [0, 1]])
        = (["vocals"]).map (fun instr => (output_path "out" "in/a.mp3" instr,
            transpose2 ((fun (_ : NDArray) (_ : String) => [[(5:ℚ), 6], [7, 8]])
              (transposeND (mono_to_stereo (transposeND (NDArray.d2 [[1, 0], [0, 1]]))))
              instr)))
      ∧ write_stems (fun _ => [[(1:ℚ), 2, 3], [4, 5, 6]]) 2 "out" "in/b.mp3" 30 true ["vocals"]
          = ((["vocals"]).map (fun instr => (output_path "out" "in/b.mp3" instr,
               transpose2 (stereo_widering_rows_core
                 (((fun (_ : String) => [[(1:ℚ), 2, 3], [4, 5, 6]]) instr).map
                   (fun ch => ch.take 2)) 30))), none)) :=
  ⟨⟨by norm_num, by norm_num, fun i _ => Nat.le_refl 2⟩,
    batch_vs_single_postprocessing (fun _ _ => [[(5:ℚ), 6], [7, 8]]) ["vocals"] "out"
      "in/a.mp3" "in/b.mp3" (NDArray.d2 [[1, 0], [0, 1]])
      (fun _ => [[(1:ℚ), 2, 3], [4, 5, 6]]) 2 30 (by norm_num) (by norm_num)
      (fun i _ => Nat.le_refl 2)⟩
